import Mathlib

/-!
# Verification of the BakerBudget rule-matching and categorization engine

This file gives a shallow embedding, in Lean 4, of the transaction
rule-matching, bucket-classification and goal-progress core of the
BakerBudget application:

* `src/app/services/rule-engine.service.ts` — value extraction
  (`getTransactionValue`, `getWeekOfMonth`, `normalizeToDateOnly`),
  condition evaluation (`evaluateCondition`), recursive filter-group
  evaluation (`evaluateFilterGroup`) and rule evaluation
  (`evaluateTransactionAgainstRule`);
* the classification and goal logic of the all-info page component
  (`applyRulesToTransactions`, `getActualGoalDateRange`,
  `calculateBucketGoalData`).

Modelling conventions, used throughout:

* JavaScript numbers are modelled by `ℚ` (exact rational arithmetic);
  `NaN` is modelled explicitly where it can arise (`Option ℚ`, with
  `none` = NaN, and the `JSVal.nan` constructor).  Floating-point
  rounding is not modelled: every computation the engine performs on
  amounts and dates is exact at the scales involved.
* Timestamps are integers (milliseconds since the Unix epoch; the
  transaction model stores seconds, multiplied by 1000 exactly as in
  the source).  The local time zone is modelled as a fixed offset
  `off` in milliseconds from UTC (local wall-clock time of instant
  `t` is `t + off`).  Daylight-saving transitions are not modelled;
  all statements about local calendar days are relative to this
  fixed-offset clock.
* JavaScript `Date` objects appearing as values are modelled by their
  millisecond timestamp (`JSVal.date`), with `JSVal.invalidDate` for
  `Invalid Date`.  Two distinct `Date` objects are never strictly
  equal (`===` is reference equality, and the engine always compares
  freshly constructed `Date`s), so `jsStrictEq` on dates is `false`.
* The `RegExp` engine is an external parameter
  `rc : String → Option (String → Bool)`: `rc pattern = none` models
  the `RegExp` constructor throwing on an invalid pattern, and
  `some test` models a compiled regex.
* The `Date` string constructor is modelled only for the two formats
  the engine actually produces: `"YYYY-MM-DDT00:00:00Z"` (UTC
  midnight) and `"YYYY-MM-DDT00:00:00"` (local midnight); every other
  string yields an invalid date.  `String(x)` for non-string `x` is
  modelled by a simple rendering; no claim depends on the exact text
  produced for numbers or dates.
-/

/-- A JavaScript value, as the rule engine can observe one: a string, a
finite number, `NaN`, a `Date` (by its millisecond timestamp), an
`Invalid Date`, `null`, or `undefined`. -/
inductive JSVal where
  | str (s : String)
  | num (q : ℚ)
  | nan
  | date (ms : Int)
  | invalidDate
  | null
  | undef
deriving DecidableEq, Repr

/-- JavaScript strict equality `===` restricted to the values above.
`NaN === x` is always false; two `Date` objects compare by reference, and
the engine only ever compares freshly allocated `Date`s, so dates are
never strictly equal; values of different types are never strictly
equal. -/
def jsStrictEq : JSVal → JSVal → Bool
  | JSVal.str a, JSVal.str b => a == b
  | JSVal.num a, JSVal.num b => a == b
  | JSVal.null, JSVal.null => true
  | JSVal.undef, JSVal.undef => true
  | _, _ => false

/-- `x === undefined || x === null`. -/
def jsIsNullish : JSVal → Bool
  | JSVal.null => true
  | JSVal.undef => true
  | _ => false

/-- Numeric value of a list of decimal digit characters. -/
def digitsVal (cs : List Char) : Nat :=
  cs.foldl (fun a c => a * 10 + (c.toNat - 48)) 0

/-- JavaScript `parseFloat` on a string: skip leading spaces, optional
sign, longest prefix of digits, optional fraction; trailing garbage is
ignored.  `none` models `NaN` (no digits at all).  Exponent notation is
not modelled; no configuration value the claims touch uses it. -/
def parseFloatStr (s : String) : Option ℚ :=
  let cs := s.toList.dropWhile (fun c => c == ' ')
  let signAndRest : ℚ × List Char :=
    match cs with
    | '-' :: t => (-1, t)
    | '+' :: t => (1, t)
    | _ => (1, cs)
  let sign := signAndRest.1
  let cs1 := signAndRest.2
  let ip := cs1.takeWhile Char.isDigit
  let rest := cs1.dropWhile Char.isDigit
  let fp :=
    match rest with
    | '.' :: t => t.takeWhile Char.isDigit
    | _ => []
  if ip.isEmpty && fp.isEmpty then none
  else some (sign * ((digitsVal ip : ℚ) + (digitsVal fp : ℚ) / (10 ^ fp.length)))

/-- `String(v)`: JavaScript string conversion.  The rendering of
numbers and dates is approximated (no claim depends on it); `null`,
`undefined` and `NaN` render exactly as in JavaScript. -/
def jsToString : JSVal → String
  | JSVal.str s => s
  | JSVal.num q => toString q
  | JSVal.nan => "NaN"
  | JSVal.date ms => "@date:" ++ toString ms
  | JSVal.invalidDate => "Invalid Date"
  | JSVal.null => "null"
  | JSVal.undef => "undefined"

/-- JavaScript `parseFloat(v)` for an arbitrary value (the value is
first converted to a string; only strings and finite numbers can parse).
`none` models `NaN`. -/
def jsParseFloat : JSVal → Option ℚ
  | JSVal.str s => parseFloatStr s
  | JSVal.num q => some q
  | _ => none

/-- Pack a `parseFloat` result (`none` = NaN) back into a value, for use
with `===`. -/
def numOrNaN : Option ℚ → JSVal
  | some q => JSVal.num q
  | none => JSVal.nan

/-! ## Calendar arithmetic

The proleptic Gregorian calendar, via the standard civil-date ↔
day-number conversion (day 0 = 1970-01-01).  Months are numbered 1–12
here; the JavaScript 0–11 convention is applied at the use sites that
need it. -/

/-- Milliseconds per day. -/
def msPerDay : Int := 86400000

/-- Is `y` a leap year (proleptic Gregorian)? -/
def isLeapYear (y : Int) : Bool :=
  y % 4 == 0 && (y % 100 != 0 || y % 400 == 0)

/-- Number of days in month `m` (1–12) of year `y`. -/
def daysInMonth (y m : Int) : Int :=
  if m == 2 then (if isLeapYear y then 29 else 28)
  else if m == 4 || m == 6 || m == 9 || m == 11 then 30
  else 31

/-- Days since 1970-01-01 of the civil date `y-m-d` (month 1–12).
Standard era-based conversion; `/` on `Int` is Euclidean division,
which for the positive divisors used here is floor division. -/
def daysFromCivil (y m d : Int) : Int :=
  let y1 := if m ≤ 2 then y - 1 else y
  let era := (if 0 ≤ y1 then y1 else y1 - 399) / 400
  let yoe := y1 - era * 400
  let doy := (153 * (if 2 < m then m - 3 else m + 9) + 2) / 5 + d - 1
  let doe := yoe * 365 + yoe / 4 - yoe / 100 + doy
  era * 146097 + doe - 719468

/-- Civil date of day number `z` (days since 1970-01-01): year, month
(1–12), day (1–31). -/
def civilFromDays (z0 : Int) : Int × Int × Int :=
  let z := z0 + 719468
  let era := (if 0 ≤ z then z else z - 146096) / 146097
  let doe := z - era * 146097
  let yoe := (doe - doe / 1460 + doe / 36524 - doe / 146096) / 365
  let y := yoe + era * 400
  let doy := doe - (365 * yoe + yoe / 4 - yoe / 100)
  let mp := (5 * doy + 2) / 153
  let d := doy - (153 * mp + 2) / 5 + 1
  let m := if mp < 10 then mp + 3 else mp - 9
  (if m ≤ 2 then y + 1 else y, m, d)

/-- Local calendar-day number (days since epoch, in local time with
fixed offset `off` milliseconds) of the instant `t`. -/
def localDays (off t : Int) : Int := (t + off) / msPerDay

/-- The instant of local midnight of the local calendar day containing
instant `t` (models `d.setHours(0,0,0,0)` and
`new Date(y, m, date)` under a fixed-offset clock). -/
def localStartOfDayMs (off t : Int) : Int := localDays off t * msPerDay - off

/-- The last millisecond of the local calendar day containing `t`
(models `new Date(y, m, date, 23, 59, 59, 999)`). -/
def localEndOfDayMs (off t : Int) : Int := localStartOfDayMs off t + msPerDay - 1

/-- JavaScript `Date.prototype.getDay` (0 = Sunday … 6 = Saturday) as a
function of the local calendar-day number.  Day 0 (1970-01-01) was a
Thursday, index 4. -/
def jsDayOfWeekOfDays (days : Int) : Int := (days + 4) % 7

/-- `Math.ceil(n / m)` for integers `n` and positive `m` (the float
division is exact at the magnitudes involved). -/
def jsCeilDiv (n m : Int) : Int := -((-n) / m)

/-- Parse a `"YYYY-MM-DD"` calendar string (exactly four digits, dash,
two digits, dash, two digits, with a valid month and day-of-month) to
its day number.  Models the validation the `Date` constructor performs
on ISO date strings. -/
def parseYMD (s : String) : Option Int :=
  match s.toList with
  | [y1, y2, y3, y4, '-', m1, m2, '-', d1, d2] =>
    if (y1.isDigit && y2.isDigit && y3.isDigit && y4.isDigit &&
        m1.isDigit && m2.isDigit && d1.isDigit && d2.isDigit) then
      let y : Int := (digitsVal [y1, y2, y3, y4] : Int)
      let m : Int := (digitsVal [m1, m2] : Int)
      let d : Int := (digitsVal [d1, d2] : Int)
      if 1 ≤ m && m ≤ 12 && 1 ≤ d && d ≤ daysInMonth y m then
        some (daysFromCivil y m d)
      else none
    else none
  | _ => none

/-- `new Date(s + "T00:00:00Z")`: parses iff `s` is a valid
`"YYYY-MM-DD"` string, as UTC midnight of that day; otherwise an
`Invalid Date`. -/
def newDateUtcMidnight (s : String) : JSVal :=
  match parseYMD s with
  | some days => JSVal.date (days * msPerDay)
  | none => JSVal.invalidDate

/-- `new Date(s + "T00:00:00")`: parses iff `s` is a valid
`"YYYY-MM-DD"` string, as local midnight of that day (date-time
strings without a UTC designator are treated as local time);
otherwise an `Invalid Date`. -/
def newDateLocalMidnight (off : Int) (s : String) : JSVal :=
  match parseYMD s with
  | some days => JSVal.date (days * msPerDay - off)
  | none => JSVal.invalidDate

/-- `String(n).padStart(2, "0")` for `0 ≤ n < 100`. -/
def pad2 (n : Int) : String :=
  if n < 10 then "0" ++ toString n else toString n

/-! ## Data model (`src/app/models/budget.model.ts`) -/

/-- A processed transaction as the engine consumes it.  `posted` is in
epoch seconds; `amountNum` is the parsed signed amount; `payee`,
`balanceBefore` and `balanceAfter` may be absent. -/
structure ProcessedTransaction where
  id : String
  posted : Int
  amount : String
  description : String
  payee : Option String
  accountId : String
  orgName : String
  accountName : String
  currency : String
  amountNum : ℚ
  balanceBefore : Option ℚ
  balanceAfter : Option ℚ
deriving DecidableEq, Repr

/-- The enumerated set of filterable transaction fields. -/
inductive FilterableField where
  | dayOfWeek | weekOfMonth | monthOfYear | transactionTime
  | orgName | accountName | payeeName | descriptionText
  | amountTransacted | balanceBefore | balanceAfter | postedDate
deriving DecidableEq, Repr

/-- The union of the string, numeric and date operator sets.  The last
three (date-part operators) reach the evaluator's default branch and
always fail. -/
inductive FilterOperator where
  | exactMatch | contains | doesNotContain | startsWith | endsWith | regex
  | equalTo | notEqualTo | greaterThan | lessThan
  | greaterThanOrEqualTo | lessThanOrEqualTo | between
  | onDate | beforeDate | afterDate | betweenDates
  | onDayOfWeek | inWeekOfMonth | inMonthOfYear
deriving DecidableEq, Repr

/-- A leaf filter condition: field, operator, primary and (for the
between operators) secondary comparison value, and the
absolute-amount flag.  The comparison values are arbitrary
JavaScript values; `value2` is `undefined` when absent. -/
structure FilterCondition where
  id : String
  name : Option String := none
  field : FilterableField
  operator : FilterOperator
  value : JSVal
  value2 : JSVal := JSVal.undef
  useAbsoluteAmount : Bool := false
deriving DecidableEq, Repr

/-- The two logical connectives of a filter group. -/
inductive LogicalOperator where
  | AND
  | OR
deriving DecidableEq, Repr

/-- A filter group: a logical operator, a list of direct conditions and
a list of nested sub-groups (a finite tree). -/
inductive FilterGroup where
  | mk (id : String) (name : Option String) (operator : LogicalOperator)
      (conditions : List FilterCondition) (subGroups : List FilterGroup)

/-- The group's logical operator. -/
def FilterGroup.operator : FilterGroup → LogicalOperator
  | FilterGroup.mk _ _ op _ _ => op

/-- The group's direct conditions. -/
def FilterGroup.conditions : FilterGroup → List FilterCondition
  | FilterGroup.mk _ _ _ cs _ => cs

/-- The group's nested sub-groups. -/
def FilterGroup.subGroups : FilterGroup → List FilterGroup
  | FilterGroup.mk _ _ _ _ sg => sg

/-- A named rule.  The TypeScript interface declares `filterGroup` as
always present, but `evaluateTransactionAgainstRule` explicitly guards
against a missing one (`!rule.filterGroup`), and the specification
calls that configuration state out, so the model makes it optional. -/
structure Rule where
  id : String
  name : String
  filterGroup : Option FilterGroup

/-! ## Value extraction and condition evaluation
(`rule-engine.service.ts`) -/

/-- `getWeekOfMonth`, the live part: the function also computes an ISO
week number into a local variable that is never used (dead code, which
mutates only a local copy of the date); the returned value is
`Math.ceil((dateInMonth + dayOfWeekForFirst) / 7)` where
`dayOfWeekForFirst` is `getDay()` of the first day of the month of the
given date (0 = Sunday). -/
def getWeekOfMonth (off t : Int) : Int :=
  let c := civilFromDays (localDays off t)
  let dayOfWeekForFirst := jsDayOfWeekOfDays (daysFromCivil c.1 c.2.1 1)
  let dateInMonth := c.2.2
  jsCeilDiv (dateInMonth + dayOfWeekForFirst) 7

/-- `getTransactionValue`: extract the typed value of a field from a
transaction.  `postedDate` is the `Date` at `posted * 1000`
milliseconds; the derived date parts are computed on the local
(fixed-offset) clock. -/
def getTransactionValue (off : Int) (tx : ProcessedTransaction) :
    FilterableField → JSVal
  | FilterableField.payeeName =>
    match tx.payee with
    | some s => JSVal.str s
    | none => JSVal.undef
  | FilterableField.descriptionText => JSVal.str tx.description
  | FilterableField.orgName => JSVal.str tx.orgName
  | FilterableField.accountName => JSVal.str tx.accountName
  | FilterableField.amountTransacted => JSVal.num tx.amountNum
  | FilterableField.balanceBefore =>
    match tx.balanceBefore with
    | some q => JSVal.num q
    | none => JSVal.undef
  | FilterableField.balanceAfter =>
    match tx.balanceAfter with
    | some q => JSVal.num q
    | none => JSVal.undef
  | FilterableField.dayOfWeek =>
    JSVal.num ((jsDayOfWeekOfDays (localDays off (tx.posted * 1000)) : ℚ))
  | FilterableField.weekOfMonth =>
    JSVal.num ((getWeekOfMonth off (tx.posted * 1000) : ℚ))
  | FilterableField.monthOfYear =>
    JSVal.num (((civilFromDays (localDays off (tx.posted * 1000))).2.1 - 1 : ℚ))
  | FilterableField.transactionTime =>
    JSVal.str (pad2 (((tx.posted * 1000 + off) / 3600000) % 24) ++ ":" ++
      pad2 (((tx.posted * 1000 + off) / 60000) % 60))
  | FilterableField.postedDate => JSVal.date (tx.posted * 1000)

/-- `normalizeToDateOnly`: build a `Date` from the input and normalize
it to local midnight; `null`/`undefined` or an invalid date give
`null` (here `none`). -/
def normalizeToDateOnly (off : Int) : JSVal → Option Int
  | JSVal.null => none
  | JSVal.undef => none
  | JSVal.date t => some (localStartOfDayMs off t)
  | JSVal.invalidDate => none
  | JSVal.nan => none
  | JSVal.num q => some (localStartOfDayMs off ⌊q⌋)
  | JSVal.str s =>
    match newDateUtcMidnight s with
    | JSVal.date t => some (localStartOfDayMs off t)
    | _ => none

/-- The transaction-side number used by the numeric operators:
`txValue` if it is a number (with `Math.abs` applied when the
absolute-amount flag is set), `NaN` (`none`) otherwise. -/
def numericTxValue (txv : JSVal) (useAbs : Bool) : Option ℚ :=
  match txv with
  | JSVal.num q => if useAbs then some |q| else some q
  | _ => none

/-- A JavaScript numeric comparison: `false` whenever either side is
`NaN`. -/
def jsNumCompare (f : ℚ → ℚ → Bool) : Option ℚ → Option ℚ → Bool
  | some a, some b => f a b
  | _, _ => false

/-- `String.prototype.toLowerCase`, ASCII range (no claim exercises
non-ASCII case mapping). -/
def jsCharLower (c : Char) : Char :=
  if 'A' ≤ c ∧ c ≤ 'Z' then Char.ofNat (c.toNat + 32) else c

/-- Lower-case a string character-wise. -/
def jsToLowerCase (s : String) : String := String.mk (s.toList.map jsCharLower)

/-- `hay.includes(needle)`: substring containment. -/
def strContains (hay needle : String) : Bool :=
  hay.toList.tails.any (fun t => needle.toList.isPrefixOf t)

/-- `a?.getTime() === b?.getTime()`: note that when both dates are
`null` the optional chains both give `undefined` and the strict
equality is `true`. -/
def optTimeEq : Option Int → Option Int → Bool
  | some a, some b => a == b
  | none, none => true
  | _, _ => false

/-- The body of `evaluateCondition`'s `try` block (the operator
switch), for a non-nullish extracted value `txv`.  The only statement
inside the `try` that can throw is the `RegExp` constructor; a thrown
error is `Except.error ()`. -/
def evaluateConditionCore (off : Int) (rc : String → Option (String → Bool))
    (c : FilterCondition) (txv : JSVal) : Except Unit Bool :=
  let filterValue := c.value
  let filterValue2 := c.value2
  let numTx := numericTxValue txv c.useAbsoluteAmount
  match c.operator with
  | FilterOperator.exactMatch =>
    Except.ok (jsToLowerCase (jsToString txv) == jsToLowerCase (jsToString filterValue))
  | FilterOperator.contains =>
    Except.ok (strContains (jsToLowerCase (jsToString txv)) (jsToLowerCase (jsToString filterValue)))
  | FilterOperator.doesNotContain =>
    Except.ok (!strContains (jsToLowerCase (jsToString txv)) (jsToLowerCase (jsToString filterValue)))
  | FilterOperator.startsWith =>
    Except.ok ((jsToLowerCase (jsToString filterValue)).toList.isPrefixOf
      (jsToLowerCase (jsToString txv)).toList)
  | FilterOperator.endsWith =>
    Except.ok ((jsToLowerCase (jsToString filterValue)).toList.isSuffixOf
      (jsToLowerCase (jsToString txv)).toList)
  | FilterOperator.regex =>
    match rc (jsToString filterValue) with
    | none => Except.error ()
    | some test => Except.ok (test (jsToString txv))
  | FilterOperator.equalTo =>
    Except.ok (if c.useAbsoluteAmount then
        jsStrictEq (numOrNaN numTx) (numOrNaN (jsParseFloat filterValue))
      else
        jsStrictEq txv (numOrNaN (jsParseFloat filterValue)) || jsStrictEq txv filterValue)
  | FilterOperator.notEqualTo =>
    Except.ok (if c.useAbsoluteAmount then
        !jsStrictEq (numOrNaN numTx) (numOrNaN (jsParseFloat filterValue))
      else
        !jsStrictEq txv (numOrNaN (jsParseFloat filterValue)) && !jsStrictEq txv filterValue)
  | FilterOperator.greaterThan =>
    Except.ok (jsNumCompare (fun a b => decide (b < a)) numTx (jsParseFloat filterValue))
  | FilterOperator.lessThan =>
    Except.ok (jsNumCompare (fun a b => decide (a < b)) numTx (jsParseFloat filterValue))
  | FilterOperator.greaterThanOrEqualTo =>
    Except.ok (jsNumCompare (fun a b => decide (b ≤ a)) numTx (jsParseFloat filterValue))
  | FilterOperator.lessThanOrEqualTo =>
    Except.ok (jsNumCompare (fun a b => decide (a ≤ b)) numTx (jsParseFloat filterValue))
  | FilterOperator.between =>
    Except.ok (jsNumCompare (fun a b => decide (b ≤ a)) numTx (jsParseFloat filterValue) &&
      jsNumCompare (fun a b => decide (a ≤ b)) numTx (jsParseFloat filterValue2))
  | FilterOperator.onDate =>
    Except.ok (optTimeEq (normalizeToDateOnly off txv)
      (normalizeToDateOnly off (newDateUtcMidnight (jsToString filterValue))))
  | FilterOperator.beforeDate =>
    Except.ok (match normalizeToDateOnly off txv,
        normalizeToDateOnly off (newDateUtcMidnight (jsToString filterValue)) with
      | some a, some b => decide (a < b)
      | _, _ => false)
  | FilterOperator.afterDate =>
    Except.ok (match normalizeToDateOnly off txv,
        normalizeToDateOnly off (newDateUtcMidnight (jsToString filterValue)) with
      | some a, some b => decide (b < a)
      | _, _ => false)
  | FilterOperator.betweenDates =>
    Except.ok (match normalizeToDateOnly off txv,
        normalizeToDateOnly off (newDateUtcMidnight (jsToString filterValue)),
        normalizeToDateOnly off (newDateUtcMidnight (jsToString filterValue2)) with
      | some a, some s, some e => decide (s ≤ a) && decide (a ≤ e)
      | _, _, _ => false)
  | FilterOperator.onDayOfWeek => Except.ok false
  | FilterOperator.inWeekOfMonth => Except.ok false
  | FilterOperator.inMonthOfYear => Except.ok false

/-- `evaluateCondition`: extract the field value; a nullish value
matches only `equalTo`/`notEqualTo` against an explicitly `null`
comparison value; otherwise run the operator switch inside the
`try`/`catch`, with any thrown error caught and turned into `false`. -/
def evaluateCondition (off : Int) (rc : String → Option (String → Bool))
    (tx : ProcessedTransaction) (c : FilterCondition) : Bool :=
  let txv := getTransactionValue off tx c.field
  if jsIsNullish txv then
    if c.operator = FilterOperator.notEqualTo ∧ c.value = JSVal.null then true
    else if c.operator = FilterOperator.equalTo ∧ c.value = JSVal.null then true
    else false
  else
    match evaluateConditionCore off rc c txv with
    | Except.ok b => b
    | Except.error _ => false

mutual

/-- `evaluateFilterGroup`: the conditions list is combined with the
group's operator (vacuously `true` under AND, `false` under OR when
empty); with no sub-groups that is the result; otherwise AND
short-circuits to `false` on failed conditions and OR to `true` on
passed conditions, and the sub-groups are combined with the same
operator (`every` / `some`, expressed as structural recursion over
the sub-group list so that the definition computes). -/
def evaluateFilterGroup (off : Int) (rc : String → Option (String → Bool))
    (tx : ProcessedTransaction) : FilterGroup → Bool
  | FilterGroup.mk _ _ op conds subs =>
    let conditionsResult :=
      if 0 < conds.length then
        match op with
        | LogicalOperator.AND => conds.all (fun c => evaluateCondition off rc tx c)
        | LogicalOperator.OR => conds.any (fun c => evaluateCondition off rc tx c)
      else decide (op = LogicalOperator.AND)
    if subs.length = 0 then conditionsResult
    else
      match op with
      | LogicalOperator.AND =>
        if conditionsResult = false then false
        else evalSubGroupsAll off rc tx subs
      | LogicalOperator.OR =>
        if conditionsResult = true then true
        else evalSubGroupsAny off rc tx subs

/-- `group.subGroups.every(subGroup => evaluateFilterGroup(...))`. -/
def evalSubGroupsAll (off : Int) (rc : String → Option (String → Bool))
    (tx : ProcessedTransaction) : List FilterGroup → Bool
  | [] => true
  | g :: gs => evaluateFilterGroup off rc tx g && evalSubGroupsAll off rc tx gs

/-- `group.subGroups.some(subGroup => evaluateFilterGroup(...))`. -/
def evalSubGroupsAny (off : Int) (rc : String → Option (String → Bool))
    (tx : ProcessedTransaction) : List FilterGroup → Bool
  | [] => false
  | g :: gs => evaluateFilterGroup off rc tx g || evalSubGroupsAny off rc tx gs

end

/-- `evaluateTransactionAgainstRule`: a rule with no filter group never
matches; otherwise delegate to the filter-group evaluator. -/
def evaluateTransactionAgainstRule (off : Int) (rc : String → Option (String → Bool))
    (tx : ProcessedTransaction) (rule : Rule) : Bool :=
  match rule.filterGroup with
  | none => false
  | some g => evaluateFilterGroup off rc tx g

/-! ## Buckets, goals and classification (all-info page component) -/

/-- One rule association of a bucket. -/
structure BucketRule where
  ruleId : String
  isActive : Bool
deriving DecidableEq, Repr

/-- Goal period kinds. -/
inductive GoalTimePeriodType where
  | FIXED_DATE_RANGE | ROLLING_DAYS | CURRENT_MONTH | CURRENT_YEAR | ALL_TIME
deriving DecidableEq, Repr

/-- Goal kinds. -/
inductive GoalType where
  | SAVINGS | SPENDING_LIMIT
deriving DecidableEq, Repr

/-- A bucket goal.  `targetAmount` is optional because the calculator
explicitly guards `targetAmount == null`; `rollingDays`, `startDate`
and `endDate` are the period-specific optional fields. -/
structure BucketGoal where
  isActive : Bool
  targetAmount : Option ℚ
  goalType : GoalType
  periodType : GoalTimePeriodType
  startDate : Option String := none
  endDate : Option String := none
  rollingDays : Option Int := none
deriving DecidableEq, Repr

/-- A bucket: priority (lower sorts first), ordered rule associations,
optional goal. -/
structure Bucket where
  id : String
  name : String
  priority : ℚ
  rules : List BucketRule
  goal : Option BucketGoal := none
deriving DecidableEq, Repr

/-- A transaction as it appears in the classifier's output: the
original transaction, spread into a copy together with the optional
`bucketId`/`bucketName` it was assigned. -/
structure CategorizedTransaction where
  tx : ProcessedTransaction
  bucketId : Option String
  bucketName : Option String
deriving DecidableEq, Repr

/-- The bucket ordering used by `[...buckets].sort((a, b) =>
a.priority - b.priority)`. -/
def bucketLE (a b : Bucket) : Prop := a.priority ≤ b.priority

instance : DecidableRel bucketLE := fun a b =>
  inferInstanceAs (Decidable (a.priority ≤ b.priority))

/-- The stable ascending-by-priority sort of the bucket list.
`Array.prototype.sort` is specified to be stable, and a stable sort's
output is determined by sortedness plus stability, so insertion sort
(which is stable: an element is inserted after all equal-priority
elements already placed, and earlier list elements are inserted
later) computes exactly the engine's sorted bucket order. -/
def sortBucketsByPriority (buckets : List Bucket) : List Bucket :=
  List.insertionSort bucketLE buckets

/-- Does some rule association of `bucket` fire for `tx`: the
association must be active, its id must resolve in the rule lookup
(an unresolvable id is skipped, not an error), and the resolved rule
must match. -/
def bucketMatchesTransaction (off : Int) (rc : String → Option (String → Bool))
    (ruleById : String → Option Rule) (tx : ProcessedTransaction) (bucket : Bucket) : Bool :=
  bucket.rules.any (fun br =>
    br.isActive &&
      (match ruleById br.ruleId with
       | some rd => evaluateTransactionAgainstRule off rc tx rd
       | none => false))

/-- The bucket a transaction is assigned to: the first bucket, in
stable priority order, with a matching active rule (the nested
`for`/`break` loops of `applyRulesToTransactions`). -/
def assignBucket (off : Int) (rc : String → Option (String → Bool))
    (ruleById : String → Option Rule) (buckets : List Bucket)
    (tx : ProcessedTransaction) : Option Bucket :=
  (sortBucketsByPriority buckets).find?
    (fun b => bucketMatchesTransaction off rc ruleById tx b)

/-- `Map.prototype.set`: overwrite the value at an existing key in
place, else append a new entry. -/
def mapSet {α : Type} (m : List (String × α)) (k : String) (v : α) :
    List (String × α) :=
  if m.any (fun p => p.1 == k) then
    m.map (fun p => if p.1 == k then (p.1, v) else p)
  else m ++ [(k, v)]

/-- `map.get(k)?.push(x)`: append to the list stored at `k`; a missing
key makes the optional chain a no-op. -/
def mapPush (m : List (String × List CategorizedTransaction)) (k : String)
    (x : CategorizedTransaction) : List (String × List CategorizedTransaction) :=
  m.map (fun p => if p.1 == k then (p.1, p.2 ++ [x]) else p)

/-- The per-transaction body of the classification loop: push the
transaction into the map entry of its assigned bucket, or append it
to the uncategorized list. -/
def classifyStep (off : Int) (rc : String → Option (String → Bool))
    (ruleById : String → Option Rule) (buckets : List Bucket)
    (acc : List (String × List CategorizedTransaction) × List CategorizedTransaction)
    (tx : ProcessedTransaction) :
    List (String × List CategorizedTransaction) × List CategorizedTransaction :=
  match assignBucket off rc ruleById buckets tx with
  | some b => (mapPush acc.1 b.id ⟨tx, some b.id, some b.name⟩, acc.2)
  | none => (acc.1, acc.2 ++ [⟨tx, none, none⟩])

/-- The initial categorized map: one empty entry per bucket
(`categorizedResult.set(bucket.id, [])` over the unsorted list). -/
def initCategorized (buckets : List Bucket) :
    List (String × List CategorizedTransaction) :=
  buckets.foldl (fun m b => mapSet m b.id []) []

/-- `applyRulesToTransactions`: initialize one empty map entry per
bucket, sort the buckets by priority, then for each transaction in
order push it into the entry of its assigned bucket, or append it to
the uncategorized list. -/
def applyRulesToTransactions (off : Int) (rc : String → Option (String → Bool))
    (ruleById : String → Option Rule) (transactions : List ProcessedTransaction)
    (buckets : List Bucket) :
    List (String × List CategorizedTransaction) × List CategorizedTransaction :=
  transactions.foldl (classifyStep off rc ruleById buckets) (initCategorized buckets, [])

/-- `getActualGoalDateRange`: the `[start, end]` instants (inclusive,
milliseconds) of a goal's active window, anchored at `now`, or `none`
for an invalid configuration.  `CURRENT_MONTH` uses
`new Date(y, m + 1, 0)` (day 0 of the next month, i.e. the last day of
the current one); the month-overflow behaviour of the date constructor
for December is reproduced exactly by `daysFromCivil` with month 13.
`ALL_TIME`'s end is the plain `new Date(2999, 11, 31)`, local
midnight, without the end-of-day adjustment. -/
def getActualGoalDateRange (now off : Int) (goal : BucketGoal) : Option (Int × Int) :=
  match goal.periodType with
  | GoalTimePeriodType.CURRENT_MONTH =>
    let c := civilFromDays (localDays off now)
    some (daysFromCivil c.1 c.2.1 1 * msPerDay - off,
          daysFromCivil c.1 (c.2.1 + 1) 1 * msPerDay - off - 1)
  | GoalTimePeriodType.ROLLING_DAYS =>
    match goal.rollingDays with
    | none => none
    | some d =>
      if d ≤ 0 then none
      else some (localStartOfDayMs off (now - (d - 1) * msPerDay),
                 localEndOfDayMs off now)
  | GoalTimePeriodType.FIXED_DATE_RANGE =>
    match goal.startDate, goal.endDate with
    | some sd, some ed =>
      (match newDateLocalMidnight off sd, newDateLocalMidnight off ed with
       | JSVal.date s, JSVal.date e =>
         some (localStartOfDayMs off s, localEndOfDayMs off e)
       | _, _ => none)
    | _, _ => none
  | GoalTimePeriodType.CURRENT_YEAR =>
    let c := civilFromDays (localDays off now)
    some (daysFromCivil c.1 1 1 * msPerDay - off,
          daysFromCivil c.1 12 31 * msPerDay - off + msPerDay - 1)
  | GoalTimePeriodType.ALL_TIME =>
    some (daysFromCivil 1970 1 1 * msPerDay - off,
          daysFromCivil 2999 12 31 * msPerDay - off)

/-- The goal-window filter of `calculateBucketGoalData`:
`txDate >= range.start && txDate <= range.end`, with `txDate` the
`Date` at `posted * 1000`. -/
def goalTransactionsInPeriod (range : Int × Int)
    (txs : List CategorizedTransaction) : List CategorizedTransaction :=
  txs.filter (fun t =>
    decide (range.1 ≤ t.tx.posted * 1000) && decide (t.tx.posted * 1000 ≤ range.2))

/-- `reduce((sum, tx) => sum + (tx.amountNum || 0), 0)`: the signed sum
of the amounts (`amountNum` is always a finite number in the model, so
the `|| 0` guard is the identity). -/
def sumAmounts (txs : List CategorizedTransaction) : ℚ :=
  txs.foldl (fun s t => s + t.tx.amountNum) 0

/-- The goal-related outputs of `calculateBucketGoalData`
(`Partial<BucketWithTransactions>`): absent fields are `none`.  The
display-only `goalPeriodDisplayString` is not modelled. -/
structure BucketGoalData where
  goalIsActiveAndConfigured : Bool
  goalTargetAmountForDisplay : Option ℚ := none
  goalCurrentSum : Option ℚ := none
  goalAmountRelevant : Option ℚ := none
  goalProgressPercentage : Option ℚ := none
  goalAmountRemaining : Option ℚ := none
  goalIsMetOrOnTrack : Option Bool := none
deriving DecidableEq, Repr

/-- `calculateBucketGoalData`: not-configured when the goal is absent,
inactive, or has a null target; zero progress and not-on-track when
the date range is invalid; otherwise sum the in-window transactions
and derive the relevant amount, remaining amount, on-track flag and
percentage by goal type. -/
def calculateBucketGoalData (now off : Int) (bucket : Bucket)
    (bucketTransactions : List CategorizedTransaction) : BucketGoalData :=
  match bucket.goal with
  | none => { goalIsActiveAndConfigured := false }
  | some goal =>
    if goal.isActive = false then { goalIsActiveAndConfigured := false }
    else
      match goal.targetAmount with
      | none => { goalIsActiveAndConfigured := false }
      | some target =>
        match getActualGoalDateRange now off goal with
        | none =>
          { goalIsActiveAndConfigured := true
            goalTargetAmountForDisplay := some target
            goalCurrentSum := some 0
            goalAmountRelevant := some 0
            goalProgressPercentage := some 0
            goalAmountRemaining := some target
            goalIsMetOrOnTrack := some false }
        | some range =>
          let txsIn := goalTransactionsInPeriod range bucketTransactions
          let currentSum := sumAmounts txsIn
          let relevant :=
            match goal.goalType with
            | GoalType.SAVINGS => currentSum
            | GoalType.SPENDING_LIMIT => if currentSum < 0 then |currentSum| else 0
          let remaining := max 0 (target - relevant)
          let met :=
            match goal.goalType with
            | GoalType.SAVINGS => decide (target ≤ relevant)
            | GoalType.SPENDING_LIMIT => decide (relevant ≤ target)
          let pct :=
            if 0 < target then relevant / target * 100
            else
              match goal.goalType with
              | GoalType.SAVINGS => if 0 ≤ relevant then (100 : ℚ) else 0
              | GoalType.SPENDING_LIMIT => if relevant = 0 then (100 : ℚ) else 0
          { goalIsActiveAndConfigured := true
            goalTargetAmountForDisplay := some target
            goalCurrentSum := some currentSum
            goalAmountRelevant := some relevant
            goalProgressPercentage := some pct
            goalAmountRemaining := some remaining
            goalIsMetOrOnTrack := some met }


/-! ## Shared helper lemmas -/

/-- `evalSubGroupsAll` is `List.all` of the group evaluator. -/
theorem evalSubGroupsAll_eq (off : Int) (rc : String → Option (String → Bool))
    (tx : ProcessedTransaction) (l : List FilterGroup) :
    evalSubGroupsAll off rc tx l = l.all (fun g => evaluateFilterGroup off rc tx g) := by
  induction l with
  | nil => rfl
  | cons g gs ih => simp [evalSubGroupsAll, ih]

/-- `evalSubGroupsAny` is `List.any` of the group evaluator. -/
theorem evalSubGroupsAny_eq (off : Int) (rc : String → Option (String → Bool))
    (tx : ProcessedTransaction) (l : List FilterGroup) :
    evalSubGroupsAny off rc tx l = l.any (fun g => evaluateFilterGroup off rc tx g) := by
  induction l with
  | nil => rfl
  | cons g gs ih => simp [evalSubGroupsAny, ih]

/-- The conditions-list result under AND: the guarded form the code
computes equals plain `all` (an empty list is vacuously true). -/
theorem condResult_AND (conds : List FilterCondition) (f : FilterCondition → Bool) :
    (if 0 < conds.length then conds.all f else true) = conds.all f := by
  cases conds <;> simp

/-- The conditions-list result under OR: the guarded form the code
computes equals plain `any` (an empty list is vacuously false). -/
theorem condResult_OR (conds : List FilterCondition) (f : FilterCondition → Bool) :
    (if 0 < conds.length then conds.any f else false) = conds.any f := by
  cases conds <;> simp

/-- Unfolding `evaluateFilterGroup` on an AND group to the flat form:
conditions and sub-groups combined by one conjunction. -/
theorem evaluateFilterGroup_AND (off : Int) (rc : String → Option (String → Bool))
    (tx : ProcessedTransaction) (i : String) (n : Option String)
    (conds : List FilterCondition) (subs : List FilterGroup) :
    evaluateFilterGroup off rc tx (FilterGroup.mk i n LogicalOperator.AND conds subs) =
      (conds.all (fun c => evaluateCondition off rc tx c) &&
        subs.all (fun g => evaluateFilterGroup off rc tx g)) := by
  have h0 : evaluateFilterGroup off rc tx (FilterGroup.mk i n LogicalOperator.AND conds subs) =
      (if subs.length = 0 then
        (if 0 < conds.length then conds.all (fun c => evaluateCondition off rc tx c) else true)
      else if (if 0 < conds.length then conds.all (fun c => evaluateCondition off rc tx c)
          else true) = false then false
        else evalSubGroupsAll off rc tx subs) := rfl
  rw [h0, condResult_AND]
  rcases subs with _ | ⟨g, gs⟩
  · simp
  · rw [if_neg (by simp)]
    cases h : conds.all (fun c => evaluateCondition off rc tx c)
    · simp
    · simp [evalSubGroupsAll_eq]

/-- Unfolding `evaluateFilterGroup` on an OR group to the flat form:
conditions and sub-groups combined by one disjunction. -/
theorem evaluateFilterGroup_OR (off : Int) (rc : String → Option (String → Bool))
    (tx : ProcessedTransaction) (i : String) (n : Option String)
    (conds : List FilterCondition) (subs : List FilterGroup) :
    evaluateFilterGroup off rc tx (FilterGroup.mk i n LogicalOperator.OR conds subs) =
      (conds.any (fun c => evaluateCondition off rc tx c) ||
        subs.any (fun g => evaluateFilterGroup off rc tx g)) := by
  have h0 : evaluateFilterGroup off rc tx (FilterGroup.mk i n LogicalOperator.OR conds subs) =
      (if subs.length = 0 then
        (if 0 < conds.length then conds.any (fun c => evaluateCondition off rc tx c) else false)
      else if (if 0 < conds.length then conds.any (fun c => evaluateCondition off rc tx c)
          else false) = true then true
        else evalSubGroupsAny off rc tx subs) := rfl
  rw [h0, condResult_OR]
  rcases subs with _ | ⟨g, gs⟩
  · simp
  · rw [if_neg (by simp)]
    cases h : conds.any (fun c => evaluateCondition off rc tx c)
    · simp [evalSubGroupsAny_eq]
    · simp

/-! ## Claim C2 -/

/-- C2: for every transaction and filter group, the group's direct
conditions and its sub-groups are combined with the group's single
operator as one flat set (AND: all conditions and all sub-groups; OR:
some condition or some sub-group); an empty conditions list is
vacuously true under AND and false under OR; with no sub-groups the
conditions result is the group result; under AND a failed conditions
result yields `false` and under OR a passed conditions result yields
`true`; a group with zero conditions and zero sub-groups evaluates to
`true` under AND and `false` under OR. -/
theorem claim_C2 (off : Int) (rc : String → Option (String → Bool))
    (tx : ProcessedTransaction) (i : String) (n : Option String)
    (conds : List FilterCondition) (subs : List FilterGroup) :
    (evaluateFilterGroup off rc tx (FilterGroup.mk i n LogicalOperator.AND conds subs) =
      (conds.all (fun c => evaluateCondition off rc tx c) &&
        subs.all (fun g => evaluateFilterGroup off rc tx g)))
    ∧ (evaluateFilterGroup off rc tx (FilterGroup.mk i n LogicalOperator.OR conds subs) =
      (conds.any (fun c => evaluateCondition off rc tx c) ||
        subs.any (fun g => evaluateFilterGroup off rc tx g)))
    ∧ (evaluateFilterGroup off rc tx (FilterGroup.mk i n LogicalOperator.AND conds []) =
        conds.all (fun c => evaluateCondition off rc tx c))
    ∧ (evaluateFilterGroup off rc tx (FilterGroup.mk i n LogicalOperator.OR conds []) =
        conds.any (fun c => evaluateCondition off rc tx c))
    ∧ (conds.all (fun c => evaluateCondition off rc tx c) = false →
        evaluateFilterGroup off rc tx (FilterGroup.mk i n LogicalOperator.AND conds subs) = false)
    ∧ (conds.any (fun c => evaluateCondition off rc tx c) = true →
        evaluateFilterGroup off rc tx (FilterGroup.mk i n LogicalOperator.OR conds subs) = true)
    ∧ (evaluateFilterGroup off rc tx (FilterGroup.mk i n LogicalOperator.AND [] []) = true)
    ∧ (evaluateFilterGroup off rc tx (FilterGroup.mk i n LogicalOperator.OR [] []) = false) := by
  refine ⟨evaluateFilterGroup_AND off rc tx i n conds subs,
    evaluateFilterGroup_OR off rc tx i n conds subs, ?_, ?_, ?_, ?_, ?_, ?_⟩
  · rw [evaluateFilterGroup_AND]; simp
  · rw [evaluateFilterGroup_OR]; simp
  · intro h; rw [evaluateFilterGroup_AND, h]; simp
  · intro h; rw [evaluateFilterGroup_OR, h]; simp
  · rw [evaluateFilterGroup_AND]; simp
  · rw [evaluateFilterGroup_OR]; simp

/-! ## Concrete fixtures shared by witnesses and counterexamples -/

/-- A regex engine that rejects every pattern (any concrete engine
works for the statements below; none of them exercises a successful
compile). -/
def rcNone : String → Option (String → Bool) := fun _ => none

/-- A sample transaction: amount 5, posted at epoch second 45000
(1970-01-01 12:30 UTC), with a payee. -/
def txSample : ProcessedTransaction :=
  { id := "t0", posted := 45000, amount := "5"
    description := "Morning COFFEE run", payee := some "Amazon"
    accountId := "a1", orgName := "Bank", accountName := "Checking"
    currency := "USD", amountNum := 5
    balanceBefore := none, balanceAfter := none }

/-- A transaction with no payee (the `payeeName` field extracts
`undefined`). -/
def txNoPayee : ProcessedTransaction :=
  { txSample with payee := none }

/-- C2 witness: the claim theorem, instantiated on a concrete OR group
(one failing string condition, one empty AND sub-group), discharging
the short-circuit hypothesis and evaluating the group to `true`. -/
theorem claim_C2_witness :
    evaluateFilterGroup 0 rcNone txSample
      (FilterGroup.mk "g" none LogicalOperator.OR
        [{ id := "c1", field := FilterableField.descriptionText,
           operator := FilterOperator.exactMatch, value := JSVal.str "zzz" }]
        [FilterGroup.mk "g2" none LogicalOperator.AND [] []]) = true := by
  rw [(claim_C2 0 rcNone txSample "g" none
    [{ id := "c1", field := FilterableField.descriptionText,
       operator := FilterOperator.exactMatch, value := JSVal.str "zzz" }]
    [FilterGroup.mk "g2" none LogicalOperator.AND [] []]).2.1]
  decide

/-! ## Claim C5 -/

/-- C5: when the extracted field value is `undefined` or `null`,
condition evaluation returns `false` for every operator, except that
`equalTo` and `notEqualTo` with an explicitly `null` comparison value
both return `true`. -/
theorem claim_C5 (off : Int) (rc : String → Option (String → Bool))
    (tx : ProcessedTransaction) (c : FilterCondition)
    (h : jsIsNullish (getTransactionValue off tx c.field) = true) :
    evaluateCondition off rc tx c =
      decide ((c.operator = FilterOperator.equalTo ∨ c.operator = FilterOperator.notEqualTo)
        ∧ c.value = JSVal.null) := by
  simp only [evaluateCondition, h, if_true]
  by_cases h1 : c.operator = FilterOperator.notEqualTo ∧ c.value = JSVal.null
  · simp [h1, h1.1, h1.2]
  · by_cases h2 : c.operator = FilterOperator.equalTo ∧ c.value = JSVal.null
    · simp [h1, h2, h2.1, h2.2]
    · simp only [h1, h2, if_false]
      have : ¬((c.operator = FilterOperator.equalTo ∨ c.operator = FilterOperator.notEqualTo)
          ∧ c.value = JSVal.null) := by tauto
      simp [this]

/-- C5 witness: a payee-less transaction under `equalTo null` on the
payee field evaluates to `true`; the same condition with `greaterThan`
evaluates to `false`. -/
theorem claim_C5_witness :
    evaluateCondition 0 rcNone txNoPayee
      { id := "c5", field := FilterableField.payeeName,
        operator := FilterOperator.equalTo, value := JSVal.null } = true ∧
    evaluateCondition 0 rcNone txNoPayee
      { id := "c5b", field := FilterableField.payeeName,
        operator := FilterOperator.greaterThan, value := JSVal.null } = false := by
  constructor
  · exact (claim_C5 0 rcNone txNoPayee
      { id := "c5", field := FilterableField.payeeName,
        operator := FilterOperator.equalTo, value := JSVal.null } (by decide)).trans (by decide)
  · exact (claim_C5 0 rcNone txNoPayee
      { id := "c5b", field := FilterableField.payeeName,
        operator := FilterOperator.greaterThan, value := JSVal.null } (by decide)).trans (by decide)

/-! ## Claim C10 -/

/-- C10: with operator `equalTo` and the absolute-amount flag unset,
evaluation returns true iff the extracted value strictly equals the
condition value parsed as a float, or strictly equals the raw
condition value; in particular a string-valued extracted field (such
as `transactionTime`, which always extracts a string) matches by
exact, case-sensitive string equality with the raw value. -/
theorem claim_C10 (off : Int) (rc : String → Option (String → Bool))
    (tx : ProcessedTransaction) (c : FilterCondition)
    (hop : c.operator = FilterOperator.equalTo)
    (habs : c.useAbsoluteAmount = false)
    (h : jsIsNullish (getTransactionValue off tx c.field) = false) :
    (evaluateCondition off rc tx c =
      (jsStrictEq (getTransactionValue off tx c.field) (numOrNaN (jsParseFloat c.value)) ||
        jsStrictEq (getTransactionValue off tx c.field) c.value))
    ∧ (∀ s s2, getTransactionValue off tx c.field = JSVal.str s → c.value = JSVal.str s2 →
        evaluateCondition off rc tx c = (s == s2))
    ∧ (∃ s, getTransactionValue off tx FilterableField.transactionTime = JSVal.str s) := by
  have main : evaluateCondition off rc tx c =
      (jsStrictEq (getTransactionValue off tx c.field) (numOrNaN (jsParseFloat c.value)) ||
        jsStrictEq (getTransactionValue off tx c.field) c.value) := by
    simp only [evaluateCondition, h, Bool.false_eq_true, if_false,
      evaluateConditionCore, hop, habs, if_false]
  refine ⟨main, ?_, ⟨_, rfl⟩⟩
  intro s s2 hs hv
  rw [main, hs, hv]
  cases hp : jsParseFloat (JSVal.str s2) <;> simp [numOrNaN, jsStrictEq]

/-- C10 witness: the sample transaction's `transactionTime` extracts
the string "12:30", and an `equalTo` condition with raw value "12:30"
evaluates by exact string equality. -/
theorem claim_C10_witness :
    evaluateCondition 0 rcNone txSample
      { id := "c10", field := FilterableField.transactionTime,
        operator := FilterOperator.equalTo, value := JSVal.str "12:30" } =
      ("12:30" == "12:30") :=
  (claim_C10 0 rcNone txSample
    { id := "c10", field := FilterableField.transactionTime,
      operator := FilterOperator.equalTo, value := JSVal.str "12:30" }
    rfl rfl (by decide)).2.1 "12:30" "12:30" (by decide) rfl

/-! ## Claim C4 -/

/-- A numeric comparison against `NaN` on the right is `false`. -/
theorem jsNumCompare_none_right (f : ℚ → ℚ → Bool) (a : Option ℚ) :
    jsNumCompare f a none = false := by
  cases a <;> rfl

/-- A numeric comparison against `NaN` on the left is `false`. -/
theorem jsNumCompare_none_left (f : ℚ → ℚ → Bool) (b : Option ℚ) :
    jsNumCompare f none b = false := by
  cases b <;> rfl

/-- Nothing is strictly equal to `NaN`. -/
theorem jsStrictEq_nan_right (v : JSVal) : jsStrictEq v JSVal.nan = false := by
  cases v <;> rfl

/-- C4, amended: evaluation never throws (a thrown error inside the
operator switch is caught and becomes `false`); a rule with a missing
filter group evaluates to `false`; an invalid regex pattern yields
`false`; an unparsable numeric comparison value yields `false` for
the ordering operators and `between`; an unparsable date value yields
`false` for `beforeDate`, `afterDate` and `betweenDates`
unconditionally, while for `onDate` the result equals whether the
transaction side is non-nullish yet also fails to resolve as a date
(the two optional `getTime` chains are then both `undefined`, and
`undefined === undefined` is `true` — so `false` whenever the
transaction-side date resolves, `true` when both sides fail); and
for `equalTo` and `notEqualTo`
an unparsable numeric value is not a failure: evaluation falls back
to raw strict (in)equality with the condition value, so `notEqualTo`
yields `true` whenever the extracted value differs from the raw
value, and with the absolute-amount flag set `notEqualTo` with an
unparsable value is always `true`. -/
theorem claim_C4_amended (off : Int) (rc : String → Option (String → Bool))
    (tx : ProcessedTransaction) :
    (∀ r : Rule, r.filterGroup = none → evaluateTransactionAgainstRule off rc tx r = false)
    ∧ (∀ c : FilterCondition, jsIsNullish (getTransactionValue off tx c.field) = false →
        evaluateConditionCore off rc c (getTransactionValue off tx c.field) = Except.error () →
        evaluateCondition off rc tx c = false)
    ∧ (∀ c : FilterCondition, c.operator = FilterOperator.regex →
        rc (jsToString c.value) = none → evaluateCondition off rc tx c = false)
    ∧ (∀ c : FilterCondition,
        (c.operator = FilterOperator.greaterThan ∨ c.operator = FilterOperator.lessThan ∨
          c.operator = FilterOperator.greaterThanOrEqualTo ∨
          c.operator = FilterOperator.lessThanOrEqualTo) →
        jsParseFloat c.value = none → evaluateCondition off rc tx c = false)
    ∧ (∀ c : FilterCondition, c.operator = FilterOperator.between →
        (jsParseFloat c.value = none ∨ jsParseFloat c.value2 = none) →
        evaluateCondition off rc tx c = false)
    ∧ (∀ c : FilterCondition,
        (c.operator = FilterOperator.beforeDate ∨ c.operator = FilterOperator.afterDate ∨
          c.operator = FilterOperator.betweenDates) →
        normalizeToDateOnly off (newDateUtcMidnight (jsToString c.value)) = none →
        evaluateCondition off rc tx c = false)
    ∧ (∀ c : FilterCondition, c.operator = FilterOperator.onDate →
        normalizeToDateOnly off (newDateUtcMidnight (jsToString c.value)) = none →
        evaluateCondition off rc tx c =
          decide (jsIsNullish (getTransactionValue off tx c.field) = false ∧
            normalizeToDateOnly off (getTransactionValue off tx c.field) = none))
    ∧ (∀ c : FilterCondition,
        (c.operator = FilterOperator.equalTo ∨ c.operator = FilterOperator.notEqualTo) →
        c.useAbsoluteAmount = false → jsParseFloat c.value = none →
        jsIsNullish (getTransactionValue off tx c.field) = false →
        evaluateCondition off rc tx c =
          (if c.operator = FilterOperator.equalTo
           then jsStrictEq (getTransactionValue off tx c.field) c.value
           else !jsStrictEq (getTransactionValue off tx c.field) c.value))
    ∧ (∀ c : FilterCondition, c.operator = FilterOperator.notEqualTo →
        c.useAbsoluteAmount = true → jsParseFloat c.value = none →
        jsIsNullish (getTransactionValue off tx c.field) = false →
        evaluateCondition off rc tx c = true) := by
  refine ⟨?_, ?_, ?_, ?_, ?_, ?_, ?_, ?_, ?_⟩
  · intro r hr
    simp [evaluateTransactionAgainstRule, hr]
  · intro c hn he
    simp only [evaluateCondition, hn, Bool.false_eq_true, if_false, he]
  · intro c hop hrc
    by_cases hn : jsIsNullish (getTransactionValue off tx c.field)
    · simp [evaluateCondition, hn, hop]
    · simp only [Bool.not_eq_true] at hn
      simp only [evaluateCondition, hn, Bool.false_eq_true, if_false,
        evaluateConditionCore, hop, hrc]
  · intro c hop hpf
    by_cases hn : jsIsNullish (getTransactionValue off tx c.field)
    · rcases hop with h | h | h | h <;> simp [evaluateCondition, hn, h]
    · simp only [Bool.not_eq_true] at hn
      rcases hop with h | h | h | h <;>
        simp only [evaluateCondition, hn, Bool.false_eq_true, if_false,
          evaluateConditionCore, h, hpf, jsNumCompare_none_right]
  · intro c hop hpf
    by_cases hn : jsIsNullish (getTransactionValue off tx c.field)
    · simp [evaluateCondition, hn, hop]
    · simp only [Bool.not_eq_true] at hn
      rcases hpf with h | h <;>
        simp only [evaluateCondition, hn, Bool.false_eq_true, if_false,
          evaluateConditionCore, hop, h, jsNumCompare_none_right,
          Bool.false_and, Bool.and_false]
  · intro c hop hfd
    by_cases hn : jsIsNullish (getTransactionValue off tx c.field)
    · rcases hop with h | h | h <;> simp [evaluateCondition, hn, h]
    · simp only [Bool.not_eq_true] at hn
      rcases hop with h | h | h <;>
        simp only [evaluateCondition, hn, Bool.false_eq_true, if_false,
          evaluateConditionCore, h, hfd] <;>
        cases htx : normalizeToDateOnly off (getTransactionValue off tx c.field) <;>
        simp
  · intro c hop hfd
    by_cases hn : jsIsNullish (getTransactionValue off tx c.field)
    · simp [evaluateCondition, hn, hop]
    · simp only [Bool.not_eq_true] at hn
      cases htx : normalizeToDateOnly off (getTransactionValue off tx c.field) <;>
        simp only [evaluateCondition, hn, Bool.false_eq_true, if_false,
          evaluateConditionCore, hop, hfd, htx, optTimeEq] <;>
        simp [hn, htx]
  · intro c hop habs hpf hn
    rcases hop with h | h <;>
      · simp only [evaluateCondition, hn, Bool.false_eq_true, if_false,
          evaluateConditionCore, h, habs, hpf, numOrNaN, jsStrictEq_nan_right,
          Bool.false_or, Bool.not_false, Bool.true_and, if_false, reduceIte]
        try simp [h]
  · intro c hop habs hpf hn
    simp only [evaluateCondition, hn, Bool.false_eq_true, if_false,
      evaluateConditionCore, hop, habs, hpf, numOrNaN, jsStrictEq_nan_right,
      Bool.not_false, if_true, reduceIte]

/-- C4 counterexample: with operator `notEqualTo` and the unparsable
numeric comparison value "abc" (`parseFloat` gives `NaN`), evaluating
against a transaction whose amount is 5 yields `true`, not the
`false` the claim requires for an internal failure: `5 !== NaN` and
`5 !== "abc"` are both true. -/
theorem claim_C4_counterexample :
    jsParseFloat (JSVal.str "abc") = none ∧
    evaluateCondition 0 rcNone txSample
      { id := "cx4", field := FilterableField.amountTransacted,
        operator := FilterOperator.notEqualTo, value := JSVal.str "abc" } = true := by
  constructor
  · decide
  · decide

/-- C4 witness: the amended theorem applied to a concrete condition
whose regex pattern fails to compile, yielding `false`. -/
theorem claim_C4_witness :
    evaluateCondition 0 rcNone txSample
      { id := "c4w", field := FilterableField.descriptionText,
        operator := FilterOperator.regex, value := JSVal.str "(" } = false :=
  (claim_C4_amended 0 rcNone txSample).2.2.1
    { id := "c4w", field := FilterableField.descriptionText,
      operator := FilterOperator.regex, value := JSVal.str "(" } rfl rfl

/-! ## Claim C8 -/

/-- C8, amended: provided the local time zone is at or east of UTC
(offset `0 ≤ off < 24h`), both the transaction's posted date and the
condition's calendar-date value normalize to local midnight of their
calendar day before comparison, so any two posted timestamps falling
on the same local calendar day as the condition's date make `onDate`
true.  (In a west-of-UTC zone the condition's date string, parsed
with a UTC designator and then normalized with local `setHours`,
lands on the previous local day — see the counterexample.) -/
theorem claim_C8_amended (off : Int) (h0 : 0 ≤ off) (h1 : off < msPerDay)
    (rc : String → Option (String → Bool)) (tx1 tx2 : ProcessedTransaction)
    (c : FilterCondition) (s : String) (D : Int)
    (hf : c.field = FilterableField.postedDate)
    (hop : c.operator = FilterOperator.onDate)
    (hv : c.value = JSVal.str s) (hD : parseYMD s = some D)
    (ht1 : localDays off (tx1.posted * 1000) = D)
    (ht2 : localDays off (tx2.posted * 1000) = D) :
    evaluateCondition off rc tx1 c = true ∧
    evaluateCondition off rc tx2 c = true ∧
    normalizeToDateOnly off (getTransactionValue off tx1 c.field) =
      some (D * msPerDay - off) ∧
    normalizeToDateOnly off (newDateUtcMidnight (jsToString c.value)) =
      some (D * msPerDay - off) := by
  have hfilter : normalizeToDateOnly off (newDateUtcMidnight (jsToString c.value)) =
      some (D * msPerDay - off) := by
    rw [hv]
    show normalizeToDateOnly off (newDateUtcMidnight s) = _
    simp only [newDateUtcMidnight, hD]
    simp only [normalizeToDateOnly, localStartOfDayMs, localDays, msPerDay]
    congr 1
    have h1x : off < 86400000 := by simpa [msPerDay] using h1
    have hq : (D * 86400000 + off) / 86400000 = D := by omega
    rw [hq]
  have htxn : ∀ tx : ProcessedTransaction, localDays off (tx.posted * 1000) = D →
      normalizeToDateOnly off (getTransactionValue off tx c.field) =
        some (D * msPerDay - off) := by
    intro tx ht
    rw [hf]
    simp only [getTransactionValue, normalizeToDateOnly, localStartOfDayMs]
    rw [ht]
  have heval : ∀ tx : ProcessedTransaction, localDays off (tx.posted * 1000) = D →
      evaluateCondition off rc tx c = true := by
    intro tx ht
    have hn : jsIsNullish (getTransactionValue off tx c.field) = false := by
      rw [hf]; rfl
    simp only [evaluateCondition, hn, Bool.false_eq_true, if_false,
      evaluateConditionCore, hop, htxn tx ht, hfilter, optTimeEq]
    simp
  exact ⟨heval tx1 ht1, heval tx2 ht2, htxn tx1 ht1, hfilter⟩

/-- C8 counterexample: in the UTC−5 time zone (offset −18000000 ms), a
transaction posted at 12:00 local time on 2024-03-10 (day number
19792) does not satisfy `onDate "2024-03-10"`: the condition's date
parses as UTC midnight and then normalizes to local midnight of
2024-03-09, while the claim requires `true` for a timestamp on the
same local calendar day as the condition's date. -/
theorem claim_C8_counterexample :
    localDays (-18000000) (((19792 * 86400000 + 17 * 3600000) / 1000) * 1000) = 19792 ∧
    parseYMD "2024-03-10" = some 19792 ∧
    evaluateCondition (-18000000) rcNone
      { txSample with posted := (19792 * 86400000 + 17 * 3600000) / 1000 }
      { id := "cx8", field := FilterableField.postedDate,
        operator := FilterOperator.onDate, value := JSVal.str "2024-03-10" } = false := by
  refine ⟨by decide, by decide, by decide⟩

/-- C8 witness: the amended theorem applied at offset 0 to a
transaction posted at 17:00 UTC on 2024-03-10, evaluating
`onDate "2024-03-10"` to `true`. -/
theorem claim_C8_witness :
    evaluateCondition 0 rcNone { txSample with posted := 19792 * 86400 + 61200 }
      { id := "c8w", field := FilterableField.postedDate,
        operator := FilterOperator.onDate, value := JSVal.str "2024-03-10" } = true :=
  (claim_C8_amended 0 (by decide) (by decide) rcNone
    { txSample with posted := 19792 * 86400 + 61200 }
    { txSample with posted := 19792 * 86400 + 61200 }
    { id := "c8w", field := FilterableField.postedDate,
      operator := FilterOperator.onDate, value := JSVal.str "2024-03-10" }
    "2024-03-10" 19792 rfl rfl rfl (by decide) (by decide) (by decide)).1

/-! ## Claim C9 -/

/-- The day-of-month produced by the civil-date conversion is at least
1 (the month-start offset subtracted from the day-of-year never
exceeds the day-of-year). -/
theorem civilFromDays_day_pos (z0 : Int) : 1 ≤ (civilFromDays z0).2.2 := by
  unfold civilFromDays
  dsimp only
  split_ifs <;> omega

/-- The weekday index is always in `[0, 6]`. -/
theorem jsDayOfWeekOfDays_range (x : Int) :
    0 ≤ jsDayOfWeekOfDays x ∧ jsDayOfWeekOfDays x ≤ 6 := by
  unfold jsDayOfWeekOfDays
  omega

/-- `Math.ceil(n / 7)` is the mathematical ceiling of `n / 7`. -/
theorem jsCeilDiv_eq_ceil (n : Int) : jsCeilDiv n 7 = ⌈(n : ℚ) / 7⌉ := by
  have hcast : ((n : ℚ)) / 7 = -(((-n : Int) : ℚ) / ((7 : ℕ) : ℚ)) := by
    push_cast
    ring
  rw [jsCeilDiv, hcast, Int.ceil_neg, Rat.floor_intCast_div_natCast]
  simp

/-- A ceiling-division by 7 of a positive number is at least 1. -/
theorem jsCeilDiv_pos (n : Int) (h : 1 ≤ n) : 1 ≤ jsCeilDiv n 7 := by
  unfold jsCeilDiv
  omega

/-- A ceiling-division by 7 of a number in `[1, 7]` is exactly 1. -/
theorem jsCeilDiv_eq_one (n : Int) (h1 : 1 ≤ n) (h2 : n ≤ 7) : jsCeilDiv n 7 = 1 := by
  unfold jsCeilDiv
  omega

/-- C9: the extracted `weekOfMonth` is
`ceiling((dayOfMonth + weekdayIndexOfFirstOfMonth) / 7)` computed from
the posted time on the local clock, with the weekday index in
`[0, 6]` and `0` denoting Sunday (day number 3, 1970-01-04, was a
Sunday); consequently the result is an integer at least 1, and day 1
of any month yields week 1. -/
theorem claim_C9 (off : Int) (tx : ProcessedTransaction) :
    (getTransactionValue off tx FilterableField.weekOfMonth =
      JSVal.num ((getWeekOfMonth off (tx.posted * 1000) : ℚ)))
    ∧ (getWeekOfMonth off (tx.posted * 1000) =
      ⌈((((civilFromDays (localDays off (tx.posted * 1000))).2.2 +
        jsDayOfWeekOfDays (daysFromCivil
          (civilFromDays (localDays off (tx.posted * 1000))).1
          (civilFromDays (localDays off (tx.posted * 1000))).2.1 1) : Int) : ℚ)) / 7⌉)
    ∧ (1 ≤ getWeekOfMonth off (tx.posted * 1000))
    ∧ (0 ≤ jsDayOfWeekOfDays (daysFromCivil
        (civilFromDays (localDays off (tx.posted * 1000))).1
        (civilFromDays (localDays off (tx.posted * 1000))).2.1 1))
    ∧ (jsDayOfWeekOfDays (daysFromCivil
        (civilFromDays (localDays off (tx.posted * 1000))).1
        (civilFromDays (localDays off (tx.posted * 1000))).2.1 1) ≤ 6)
    ∧ ((civilFromDays (localDays off (tx.posted * 1000))).2.2 = 1 →
        getWeekOfMonth off (tx.posted * 1000) = 1)
    ∧ (jsDayOfWeekOfDays 3 = 0) := by
  have hd := civilFromDays_day_pos (localDays off (tx.posted * 1000))
  have hw := jsDayOfWeekOfDays_range (daysFromCivil
    (civilFromDays (localDays off (tx.posted * 1000))).1
    (civilFromDays (localDays off (tx.posted * 1000))).2.1 1)
  have hunf : getWeekOfMonth off (tx.posted * 1000) =
      jsCeilDiv ((civilFromDays (localDays off (tx.posted * 1000))).2.2 +
        jsDayOfWeekOfDays (daysFromCivil
          (civilFromDays (localDays off (tx.posted * 1000))).1
          (civilFromDays (localDays off (tx.posted * 1000))).2.1 1)) 7 := rfl
  refine ⟨rfl, ?_, ?_, hw.1, hw.2, ?_, by decide⟩
  · rw [hunf, jsCeilDiv_eq_ceil]
  · rw [hunf]
    exact jsCeilDiv_pos _ (by omega)
  · intro h
    rw [hunf, h]
    exact jsCeilDiv_eq_one _ (by omega) (by omega)

/-- C9 witness: epoch (1970-01-01, day 1 of its month, local offset 0)
yields week 1, by the day-1 clause of the claim theorem. -/
theorem claim_C9_witness :
    getWeekOfMonth 0 ({ txSample with posted := 0 }.posted * 1000) = 1 :=
  (claim_C9 0 { txSample with posted := 0 }).2.2.2.2.2.1 (by decide)

/-! ## Claim C6 -/

/-- The spending-limit relevant amount, as the code computes it, is
`max(0, -S)`. -/
theorem spendRelevant_eq (S : ℚ) : (if S < 0 then |S| else 0) = max 0 (-S) := by
  rcases lt_or_le S 0 with h | h
  · rw [if_pos h, abs_of_neg h, max_eq_right (by linarith)]
  · rw [if_neg (not_lt.2 h), max_eq_left (by linarith)]

/-- C6: for an active SPENDING_LIMIT goal with a non-negative target
and a resolved date window, the relevant amount is
`max(0, -currentSum)` where `currentSum` is the signed sum of the
in-window transactions, the remaining amount is
`max(0, target - relevant)`, and a non-negative current sum (net
inflow) gives relevant amount 0 with the goal reported as met or on
track. -/
theorem claim_C6 (now off : Int) (bucket : Bucket) (goal : BucketGoal) (t : ℚ)
    (txs : List CategorizedTransaction) (range : Int × Int)
    (hg : bucket.goal = some goal) (ha : goal.isActive = true)
    (ht : goal.targetAmount = some t) (htn : 0 ≤ t)
    (hk : goal.goalType = GoalType.SPENDING_LIMIT)
    (hr : getActualGoalDateRange now off goal = some range) :
    ((calculateBucketGoalData now off bucket txs).goalCurrentSum =
      some (sumAmounts (goalTransactionsInPeriod range txs)))
    ∧ ((calculateBucketGoalData now off bucket txs).goalAmountRelevant =
      some (max 0 (-(sumAmounts (goalTransactionsInPeriod range txs)))))
    ∧ ((calculateBucketGoalData now off bucket txs).goalAmountRemaining =
      some (max 0 (t - max 0 (-(sumAmounts (goalTransactionsInPeriod range txs))))))
    ∧ (0 ≤ sumAmounts (goalTransactionsInPeriod range txs) →
        (calculateBucketGoalData now off bucket txs).goalAmountRelevant = some 0 ∧
        (calculateBucketGoalData now off bucket txs).goalIsMetOrOnTrack = some true) := by
  have hcalc : calculateBucketGoalData now off bucket txs =
      (let S := sumAmounts (goalTransactionsInPeriod range txs)
       let relevant := if S < 0 then |S| else 0
       { goalIsActiveAndConfigured := true
         goalTargetAmountForDisplay := some t
         goalCurrentSum := some S
         goalAmountRelevant := some relevant
         goalProgressPercentage := some (if 0 < t then relevant / t * 100
           else if relevant = 0 then (100 : ℚ) else 0)
         goalAmountRemaining := some (max 0 (t - relevant))
         goalIsMetOrOnTrack := some (decide (relevant ≤ t)) }) := by
    simp only [calculateBucketGoalData, hg, ha, ht, hr, hk]
    simp
  rw [hcalc]
  dsimp only
  refine ⟨rfl, ?_, ?_, ?_⟩
  · rw [spendRelevant_eq]
  · rw [spendRelevant_eq]
  · intro hS
    rw [if_neg (not_lt.2 hS)]
    exact ⟨rfl, by simp [htn]⟩

/-- A concrete spending-limit, all-time goal for the C6 witness. -/
def goalSpendAll : BucketGoal :=
  { isActive := true, targetAmount := some 100
    goalType := GoalType.SPENDING_LIMIT
    periodType := GoalTimePeriodType.ALL_TIME }

/-- A concrete bucket carrying `goalSpendAll`. -/
def bucketSpend : Bucket :=
  { id := "b1", name := "Spend", priority := 1, rules := []
    goal := some goalSpendAll }

/-- C6 witness: a single in-window transaction of +30 (net refund)
yields relevant amount 0 and an on-track spending-limit goal, by the
claim theorem at the all-time window. -/
theorem claim_C6_witness :
    (calculateBucketGoalData 1000000000000 0 bucketSpend
      [⟨{ txSample with amountNum := 30 }, some "b1", some "Spend"⟩]).goalAmountRelevant =
      some 0 ∧
    (calculateBucketGoalData 1000000000000 0 bucketSpend
      [⟨{ txSample with amountNum := 30 }, some "b1", some "Spend"⟩]).goalIsMetOrOnTrack =
      some true :=
  (claim_C6 1000000000000 0 bucketSpend goalSpendAll 100
    [⟨{ txSample with amountNum := 30 }, some "b1", some "Spend"⟩]
    (0, 32503593600000) rfl rfl rfl (by norm_num) rfl (by decide)).2.2.2
    (by
      have h : sumAmounts (goalTransactionsInPeriod (0, 32503593600000)
          [⟨{ txSample with amountNum := 30 }, some "b1", some "Spend"⟩]) = 30 := by
        simp [sumAmounts, goalTransactionsInPeriod, txSample]
      rw [h]
      norm_num)

/-! ## Claim C7 -/

/-- An instant lies in the full-day window of `now` iff it falls on
the same local calendar day as `now`. -/
theorem localWindow_mem (off now x : Int) :
    (localStartOfDayMs off now ≤ x ∧ x ≤ localEndOfDayMs off now) ↔
      localDays off x = localDays off now := by
  unfold localEndOfDayMs localStartOfDayMs localDays msPerDay
  omega

/-- C7: an active ROLLING_DAYS goal with day count `d ≥ 1` resolves to
the window from local start-of-day of `now − (d−1)` days through
local end-of-day of `now`; a transaction is counted iff its posted
timestamp lies inclusively in that window, so with `d = 1` exactly
the transactions on the current local calendar day are counted; a
missing or non-positive day count resolves no window, and the
calculator then reports zero sum, zero relevant amount, zero
progress and a not-on-track status instead of throwing. -/
theorem claim_C7 (now off : Int) (goal : BucketGoal)
    (hd : goal.periodType = GoalTimePeriodType.ROLLING_DAYS) :
    (∀ d : Int, goal.rollingDays = some d → 1 ≤ d →
      getActualGoalDateRange now off goal =
        some (localStartOfDayMs off (now - (d - 1) * msPerDay), localEndOfDayMs off now))
    ∧ (∀ d : Int, goal.rollingDays = some d → 1 ≤ d →
        ∀ (txs : List CategorizedTransaction) (tcat : CategorizedTransaction),
        tcat ∈ goalTransactionsInPeriod
            (localStartOfDayMs off (now - (d - 1) * msPerDay), localEndOfDayMs off now) txs ↔
          (tcat ∈ txs ∧
            localStartOfDayMs off (now - (d - 1) * msPerDay) ≤ tcat.tx.posted * 1000 ∧
            tcat.tx.posted * 1000 ≤ localEndOfDayMs off now))
    ∧ (∀ (txs : List CategorizedTransaction) (tcat : CategorizedTransaction),
        tcat ∈ goalTransactionsInPeriod
            (localStartOfDayMs off now, localEndOfDayMs off now) txs ↔
          (tcat ∈ txs ∧ localDays off (tcat.tx.posted * 1000) = localDays off now))
    ∧ ((goal.rollingDays = none ∨ ∃ d, goal.rollingDays = some d ∧ d ≤ 0) →
        getActualGoalDateRange now off goal = none)
    ∧ (∀ (bucket : Bucket) (txs : List CategorizedTransaction) (t : ℚ),
        bucket.goal = some goal → goal.isActive = true → goal.targetAmount = some t →
        getActualGoalDateRange now off goal = none →
        (calculateBucketGoalData now off bucket txs).goalCurrentSum = some 0 ∧
        (calculateBucketGoalData now off bucket txs).goalAmountRelevant = some 0 ∧
        (calculateBucketGoalData now off bucket txs).goalProgressPercentage = some 0 ∧
        (calculateBucketGoalData now off bucket txs).goalAmountRemaining = some t ∧
        (calculateBucketGoalData now off bucket txs).goalIsMetOrOnTrack = some false) := by
  refine ⟨?_, ?_, ?_, ?_, ?_⟩
  · intro d h hd1
    simp only [getActualGoalDateRange, hd, h]
    rw [if_neg (by omega)]
  · intro d h hd1 txs tcat
    simp [goalTransactionsInPeriod, List.mem_filter]
  · intro txs tcat
    have hw := localWindow_mem off now (tcat.tx.posted * 1000)
    simp only [goalTransactionsInPeriod, List.mem_filter, Bool.and_eq_true,
      decide_eq_true_eq]
    tauto
  · intro h
    rcases h with h | ⟨d, h, hle⟩
    · simp only [getActualGoalDateRange, hd, h]
    · simp only [getActualGoalDateRange, hd, h]
      rw [if_pos hle]
  · intro bucket txs t hg ha ht hnone
    have hcalc : calculateBucketGoalData now off bucket txs =
        { goalIsActiveAndConfigured := true
          goalTargetAmountForDisplay := some t
          goalCurrentSum := some 0
          goalAmountRelevant := some 0
          goalProgressPercentage := some 0
          goalAmountRemaining := some t
          goalIsMetOrOnTrack := some false } := by
      simp only [calculateBucketGoalData, hg, ha, ht, hnone]
      simp
    rw [hcalc]
    exact ⟨rfl, rfl, rfl, rfl, rfl⟩

/-- A one-day rolling spending goal for the C7 witness. -/
def goalRoll1 : BucketGoal :=
  { isActive := true, targetAmount := some 100
    goalType := GoalType.SPENDING_LIMIT
    periodType := GoalTimePeriodType.ROLLING_DAYS
    rollingDays := some 1 }

/-- C7 witness: at `now` = 2024-03-10 15:00 UTC with offset 0, the
one-day rolling window is exactly the full UTC day 2024-03-10, by the
claim theorem instantiated and evaluated. -/
theorem claim_C7_witness :
    getActualGoalDateRange (19792 * 86400000 + 54000000) 0 goalRoll1 =
      some (1710028800000, 1710115199999) :=
  ((claim_C7 (19792 * 86400000 + 54000000) 0 goalRoll1 rfl).1 1 rfl
    (by norm_num)).trans (by decide)

/-! ## Claim C1 -/

/-- Total number of transactions stored in the categorized map. -/
def mapTotal (m : List (String × List CategorizedTransaction)) : Nat :=
  (m.map (fun p => p.2.length)).sum

/-- `mapPush` never changes the key set. -/
theorem mapPush_keys (m : List (String × List CategorizedTransaction)) (k : String)
    (x : CategorizedTransaction) : (mapPush m k x).map Prod.fst = m.map Prod.fst := by
  unfold mapPush
  rw [List.map_map]
  apply List.map_congr_left
  intro p _
  simp only [Function.comp_apply]
  split <;> rfl

/-- Pushing at an absent key is a no-op. -/
theorem mapPush_not_mem (m : List (String × List CategorizedTransaction)) (k : String)
    (x : CategorizedTransaction) (h : ¬ k ∈ m.map Prod.fst) : mapPush m k x = m := by
  induction m with
  | nil => rfl
  | cons p t ih =>
    simp only [List.map_cons, List.mem_cons] at h
    push_neg at h
    have hne : (p.1 == k) = false := by
      simp only [beq_eq_false_iff_ne, ne_eq]
      exact fun hp => h.1 hp.symm
    have hcons : mapPush (p :: t) k x = p :: mapPush t k x := by
      simp only [mapPush, List.map_cons, hne, Bool.false_eq_true, if_false]
    rw [hcons, ih h.2]

/-- Pushing at a key present in a map with distinct keys grows the
total size by exactly one. -/
theorem mapTotal_push (m : List (String × List CategorizedTransaction)) (k : String)
    (x : CategorizedTransaction) (hnd : (m.map Prod.fst).Nodup)
    (hk : k ∈ m.map Prod.fst) : mapTotal (mapPush m k x) = mapTotal m + 1 := by
  induction m with
  | nil => simp at hk
  | cons p t ih =>
    simp only [List.map_cons, List.nodup_cons] at hnd
    simp only [List.map_cons, List.mem_cons] at hk
    by_cases h : p.1 = k
    · have hnt : ¬ k ∈ t.map Prod.fst := h ▸ hnd.1
      have hbeq : (p.1 == k) = true := by simp [h]
      have hcons : mapPush (p :: t) k x = (p.1, p.2 ++ [x]) :: mapPush t k x := by
        simp only [mapPush, List.map_cons, hbeq, if_true]
      rw [hcons, mapPush_not_mem t k x hnt]
      simp only [mapTotal, List.map_cons, List.sum_cons, List.length_append,
        List.length_singleton]
      omega
    · have hk' : k ∈ t.map Prod.fst := by
        rcases hk with hk | hk
        · exact absurd hk.symm h
        · exact hk
      have hne : (p.1 == k) = false := by
        simp only [beq_eq_false_iff_ne, ne_eq]
        exact h
      have hcons : mapPush (p :: t) k x = p :: mapPush t k x := by
        simp only [mapPush, List.map_cons, hne, Bool.false_eq_true, if_false]
      rw [hcons]
      have iht := ih hnd.2 hk'
      simp only [mapTotal, List.map_cons, List.sum_cons] at iht ⊢
      omega

/-- The key list of `mapSet`: unchanged when the key is present,
extended by the key otherwise. -/
theorem mapSet_keys {α : Type} (m : List (String × α)) (k : String) (v : α) :
    (mapSet m k v).map Prod.fst =
      if k ∈ m.map Prod.fst then m.map Prod.fst else m.map Prod.fst ++ [k] := by
  have hmem : (m.any (fun p => p.1 == k)) = true ↔ k ∈ m.map Prod.fst := by
    simp only [List.any_eq_true, List.mem_map, beq_iff_eq]
  unfold mapSet
  by_cases h : m.any (fun p => p.1 == k)
  · rw [if_pos h, if_pos (hmem.1 h), List.map_map]
    apply List.map_congr_left
    intro p _
    simp only [Function.comp_apply]
    split <;> rfl
  · rw [if_neg h, if_neg (fun hc => h (hmem.2 hc))]
    simp

/-- `mapSet` preserves distinctness of keys. -/
theorem mapSet_keys_nodup {α : Type} (m : List (String × α)) (k : String) (v : α)
    (h : (m.map Prod.fst).Nodup) : ((mapSet m k v).map Prod.fst).Nodup := by
  rw [mapSet_keys]
  by_cases hk : k ∈ m.map Prod.fst
  · rwa [if_pos hk]
  · rw [if_neg hk]
    rw [List.nodup_append]
    refine ⟨h, List.nodup_singleton k, ?_⟩
    intro a ha hak
    rw [List.mem_singleton] at hak
    exact hk (hak ▸ ha)

/-- The key written by `mapSet` is in the result's key set. -/
theorem mapSet_mem_keys {α : Type} (m : List (String × α)) (k : String) (v : α) :
    k ∈ (mapSet m k v).map Prod.fst := by
  rw [mapSet_keys]
  by_cases hk : k ∈ m.map Prod.fst <;> simp [hk]

/-- `mapSet` keeps every existing key. -/
theorem mapSet_keys_mono {α : Type} (m : List (String × α)) (k k' : String) (v : α)
    (h : k' ∈ m.map Prod.fst) : k' ∈ (mapSet m k v).map Prod.fst := by
  rw [mapSet_keys]
  by_cases hk : k ∈ m.map Prod.fst <;> simp [hk, h]

/-- The initialization fold produces distinct keys containing every
existing key and every bucket id. -/
theorem foldl_mapSet_props (buckets : List Bucket) :
    ∀ m : List (String × List CategorizedTransaction), (m.map Prod.fst).Nodup →
      (((buckets.foldl (fun acc b => mapSet acc b.id []) m).map Prod.fst).Nodup ∧
        (∀ k, k ∈ m.map Prod.fst →
          k ∈ (buckets.foldl (fun acc b => mapSet acc b.id []) m).map Prod.fst) ∧
        (∀ b ∈ buckets,
          b.id ∈ (buckets.foldl (fun acc b => mapSet acc b.id []) m).map Prod.fst)) := by
  induction buckets with
  | nil =>
    intro m hm
    exact ⟨hm, fun k hk => hk, fun b hb => absurd hb (List.not_mem_nil b)⟩
  | cons b bs ih =>
    intro m hm
    simp only [List.foldl_cons]
    obtain ⟨h1, h2, h3⟩ := ih (mapSet m b.id []) (mapSet_keys_nodup m b.id [] hm)
    refine ⟨h1, ?_, ?_⟩
    · intro k hk
      exact h2 k (mapSet_keys_mono m b.id k [] hk)
    · intro b' hb'
      rcases List.mem_cons.1 hb' with hb' | hb'
      · exact hb' ▸ h2 b.id (mapSet_mem_keys m b.id [])
      · exact h3 b' hb'

/-- Every value stored by the initialization fold is the empty list. -/
theorem foldl_mapSet_empty (buckets : List Bucket) :
    ∀ m : List (String × List CategorizedTransaction),
      (∀ p ∈ m, p.2 = ([] : List CategorizedTransaction)) →
      ∀ p ∈ buckets.foldl (fun acc b => mapSet acc b.id []) m, p.2 = [] := by
  induction buckets with
  | nil => exact fun m hm => hm
  | cons b bs ih =>
    intro m hm
    simp only [List.foldl_cons]
    apply ih
    intro p hp
    unfold mapSet at hp
    by_cases h : m.any (fun q => q.1 == b.id)
    · rw [if_pos h] at hp
      obtain ⟨q, hq, hpq⟩ := List.mem_map.1 hp
      by_cases hqb : q.1 == b.id
      · rw [if_pos hqb] at hpq
        rw [← hpq]
      · rw [if_neg hqb] at hpq
        exact hpq ▸ hm q hq
    · rw [if_neg h] at hp
      rcases List.mem_append.1 hp with hp | hp
      · exact hm p hp
      · rw [List.mem_singleton.1 hp]

/-- The initial categorized map has distinct keys, one per bucket id. -/
theorem initCategorized_nodup (buckets : List Bucket) :
    ((initCategorized buckets).map Prod.fst).Nodup :=
  (foldl_mapSet_props buckets [] (by simp)).1

/-- Every bucket id is a key of the initial categorized map. -/
theorem initCategorized_mem (buckets : List Bucket) :
    ∀ b ∈ buckets, b.id ∈ (initCategorized buckets).map Prod.fst :=
  (foldl_mapSet_props buckets [] (by simp)).2.2

/-- The initial categorized map is empty in total. -/
theorem initCategorized_total (buckets : List Bucket) :
    mapTotal (initCategorized buckets) = 0 := by
  apply List.sum_eq_zero
  intro x hx
  obtain ⟨p, hp, hpl⟩ := List.mem_map.1 hx
  rw [← hpl, foldl_mapSet_empty buckets [] (by simp) p hp]
  rfl

/-- The classification fold adds exactly one stored transaction per
input transaction, given distinct map keys covering all bucket ids. -/
theorem classify_total_aux (off : Int) (rc : String → Option (String → Bool))
    (ruleById : String → Option Rule) (buckets : List Bucket)
    (txs : List ProcessedTransaction) :
    ∀ acc : List (String × List CategorizedTransaction) × List CategorizedTransaction,
      (acc.1.map Prod.fst).Nodup → (∀ b ∈ buckets, b.id ∈ acc.1.map Prod.fst) →
      mapTotal (txs.foldl (classifyStep off rc ruleById buckets) acc).1 +
        (txs.foldl (classifyStep off rc ruleById buckets) acc).2.length =
        mapTotal acc.1 + acc.2.length + txs.length := by
  induction txs with
  | nil =>
    intro acc h1 h2
    simp
  | cons tx rest ih =>
    intro acc h1 h2
    simp only [List.foldl_cons, List.length_cons]
    cases hassign : assignBucket off rc ruleById buckets tx with
    | none =>
      have hstep : classifyStep off rc ruleById buckets acc tx =
          (acc.1, acc.2 ++ [⟨tx, none, none⟩]) := by
        simp [classifyStep, hassign]
      rw [hstep]
      have := ih (acc.1, acc.2 ++ [⟨tx, none, none⟩]) h1 h2
      simp only [List.length_append, List.length_singleton] at this ⊢
      omega
    | some b =>
      have hb : b ∈ buckets := by
        have hmem := List.mem_of_find?_eq_some hassign
        exact (List.perm_insertionSort bucketLE buckets).mem_iff.1 hmem
      have hkey : b.id ∈ acc.1.map Prod.fst := h2 b hb
      have hstep : classifyStep off rc ruleById buckets acc tx =
          (mapPush acc.1 b.id ⟨tx, some b.id, some b.name⟩, acc.2) := by
        simp [classifyStep, hassign]
      rw [hstep]
      have hrec := ih (mapPush acc.1 b.id ⟨tx, some b.id, some b.name⟩, acc.2)
        (by rw [mapPush_keys]; exact h1)
        (by intro b' hb'; rw [mapPush_keys]; exact h2 b' hb')
      simp only at hrec
      rw [hrec, mapTotal_push acc.1 b.id ⟨tx, some b.id, some b.name⟩ h1 hkey]
      omega

/-- C1: classification is a partition by count — the sizes of all
per-bucket output lists plus the size of the uncategorized list equal
the number of input transactions, for every transaction list, bucket
configuration and rule lookup. -/
theorem claim_C1 (off : Int) (rc : String → Option (String → Bool))
    (ruleById : String → Option Rule) (txs : List ProcessedTransaction)
    (buckets : List Bucket) :
    mapTotal (applyRulesToTransactions off rc ruleById txs buckets).1 +
      (applyRulesToTransactions off rc ruleById txs buckets).2.length = txs.length := by
  unfold applyRulesToTransactions
  have h := classify_total_aux off rc ruleById buckets txs (initCategorized buckets, [])
    (initCategorized_nodup buckets) (initCategorized_mem buckets)
  simp only [List.length_nil, initCategorized_total, Nat.zero_add, Nat.add_zero] at h
  exact h

/-! ## Claim C3 -/

/-- Filtering a priority class out of an ordered insert: the inserted
bucket lands in front of its class (every bucket it passes over has a
strictly smaller priority). -/
theorem filter_orderedInsert_priority (p : ℚ) (a : Bucket) (l : List Bucket) :
    (List.orderedInsert bucketLE a l).filter (fun b => decide (b.priority = p)) =
      if a.priority = p then a :: l.filter (fun b => decide (b.priority = p))
      else l.filter (fun b => decide (b.priority = p)) := by
  induction l with
  | nil =>
    by_cases hap : a.priority = p <;>
      simp [List.orderedInsert, List.filter_cons, hap]
  | cons b t ih =>
    rw [List.orderedInsert]
    by_cases hab : bucketLE a b
    · rw [if_pos hab]
      by_cases hap : a.priority = p <;> simp [List.filter_cons, hap]
    · rw [if_neg hab]
      have hlt : b.priority < a.priority := not_le.1 hab
      by_cases hap : a.priority = p
      · have hbp : ¬ (b.priority = p) := by
          rw [← hap]
          exact ne_of_lt hlt
        simp [List.filter_cons, hbp, ih, hap]
      · by_cases hbp : b.priority = p <;> simp [List.filter_cons, hbp, ih, hap]

/-- Stability of the bucket sort: each priority class keeps its
original relative order (its filter is unchanged by sorting). -/
theorem filter_sortBuckets_priority (p : ℚ) (l : List Bucket) :
    (sortBucketsByPriority l).filter (fun b => decide (b.priority = p)) =
      l.filter (fun b => decide (b.priority = p)) := by
  induction l with
  | nil => rfl
  | cons a t ih =>
    unfold sortBucketsByPriority at *
    rw [List.insertionSort, filter_orderedInsert_priority, ih, List.filter_cons]
    by_cases hap : a.priority = p <;> simp [hap]

/-- The sorted bucket list is ascending by priority. -/
theorem sortBuckets_sorted (l : List Bucket) :
    List.Sorted bucketLE (sortBucketsByPriority l) := by
  haveI : IsTotal Bucket bucketLE := ⟨fun a b => le_total a.priority b.priority⟩
  haveI : IsTrans Bucket bucketLE := ⟨fun a b c h1 h2 => le_trans h1 h2⟩
  exact List.sorted_insertionSort bucketLE l

/-- `find?` returns the head of the filtered list. -/
theorem find?_eq_head_filter {α : Type} (f : α → Bool) (l : List α) :
    l.find? f = (l.filter f).head? := by
  induction l with
  | nil => rfl
  | cons a t ih =>
    by_cases h : f a = true
    · rw [List.find?_cons_of_pos _ h, List.filter_cons_of_pos h]
      rfl
    · rw [List.find?_cons_of_neg _ h, List.filter_cons_of_neg h, ih]

/-- A bucket matches a transaction iff some stored rule association is
active, resolves in the rule lookup, and its rule matches. -/
theorem bucketMatches_iff (off : Int) (rc : String → Option (String → Bool))
    (ruleById : String → Option Rule) (tx : ProcessedTransaction) (b : Bucket) :
    bucketMatchesTransaction off rc ruleById tx b = true ↔
      ∃ br ∈ b.rules, br.isActive = true ∧ ∃ rd, ruleById br.ruleId = some rd ∧
        evaluateTransactionAgainstRule off rc tx rd = true := by
  unfold bucketMatchesTransaction
  rw [List.any_eq_true]
  constructor
  · rintro ⟨br, hbr, hcond⟩
    rw [Bool.and_eq_true] at hcond
    refine ⟨br, hbr, hcond.1, ?_⟩
    obtain ⟨hact, hmat⟩ := hcond
    cases hr : ruleById br.ruleId with
    | none =>
      rw [hr] at hmat
      simp at hmat
    | some rd =>
      rw [hr] at hmat
      exact ⟨rd, rfl, hmat⟩
  · rintro ⟨br, hbr, hact, rd, hrd, hev⟩
    refine ⟨br, hbr, ?_⟩
    rw [Bool.and_eq_true]
    refine ⟨hact, ?_⟩
    rw [hrd]
    exact hev

/-- The uncategorized output collects, in input order, exactly the
transactions assigned to no bucket. -/
theorem classify_uncategorized_aux (off : Int) (rc : String → Option (String → Bool))
    (ruleById : String → Option Rule) (buckets : List Bucket)
    (txs : List ProcessedTransaction) :
    ∀ acc : List (String × List CategorizedTransaction) × List CategorizedTransaction,
      (txs.foldl (classifyStep off rc ruleById buckets) acc).2 =
        acc.2 ++ (txs.filter
          (fun tx => decide (assignBucket off rc ruleById buckets tx = none))).map
          (fun tx => (⟨tx, none, none⟩ : CategorizedTransaction)) := by
  induction txs with
  | nil =>
    intro acc
    simp
  | cons tx rest ih =>
    intro acc
    simp only [List.foldl_cons, List.filter_cons]
    cases hassign : assignBucket off rc ruleById buckets tx with
    | none =>
      have hstep : classifyStep off rc ruleById buckets acc tx =
          (acc.1, acc.2 ++ [⟨tx, none, none⟩]) := by
        simp [classifyStep, hassign]
      rw [hstep, ih]
      simp
    | some b =>
      have hstep : classifyStep off rc ruleById buckets acc tx =
          (mapPush acc.1 b.id ⟨tx, some b.id, some b.name⟩, acc.2) := by
        simp [classifyStep, hassign]
      rw [hstep, ih]
      simp

/-- C3: classification scans the buckets as a stable ascending sort by
priority (sorted, a permutation of the input, each priority class in
original order); a bucket fires only through an active association
whose rule id resolves; the assigned bucket is the first matching one
in sorted order (head of the filtered list; `none` exactly when no
sorted bucket matches); and the uncategorized output is exactly the
unassigned transactions in input order. -/
theorem claim_C3 (off : Int) (rc : String → Option (String → Bool))
    (ruleById : String → Option Rule) (buckets : List Bucket) :
    (List.Sorted bucketLE (sortBucketsByPriority buckets))
    ∧ ((sortBucketsByPriority buckets).Perm buckets)
    ∧ (∀ p : ℚ, (sortBucketsByPriority buckets).filter (fun b => decide (b.priority = p)) =
        buckets.filter (fun b => decide (b.priority = p)))
    ∧ (∀ (tx : ProcessedTransaction) (b : Bucket),
        bucketMatchesTransaction off rc ruleById tx b = true ↔
          ∃ br ∈ b.rules, br.isActive = true ∧ ∃ rd, ruleById br.ruleId = some rd ∧
            evaluateTransactionAgainstRule off rc tx rd = true)
    ∧ (∀ tx : ProcessedTransaction, assignBucket off rc ruleById buckets tx =
        ((sortBucketsByPriority buckets).filter
          (fun b => bucketMatchesTransaction off rc ruleById tx b)).head?)
    ∧ (∀ (tx : ProcessedTransaction) (b : Bucket),
        assignBucket off rc ruleById buckets tx = some b →
          bucketMatchesTransaction off rc ruleById tx b = true)
    ∧ (∀ tx : ProcessedTransaction, assignBucket off rc ruleById buckets tx = none ↔
        ∀ b ∈ sortBucketsByPriority buckets,
          ¬ bucketMatchesTransaction off rc ruleById tx b = true)
    ∧ (∀ txs : List ProcessedTransaction,
        (applyRulesToTransactions off rc ruleById txs buckets).2 =
          (txs.filter (fun tx => decide (assignBucket off rc ruleById buckets tx = none))).map
            (fun tx => (⟨tx, none, none⟩ : CategorizedTransaction))) := by
  refine ⟨sortBuckets_sorted buckets, List.perm_insertionSort bucketLE buckets,
    fun p => filter_sortBuckets_priority p buckets,
    fun tx b => bucketMatches_iff off rc ruleById tx b, ?_, ?_, ?_, ?_⟩
  · intro tx
    unfold assignBucket
    exact find?_eq_head_filter _ _
  · intro tx b h
    exact List.find?_some h
  · intro tx
    unfold assignBucket
    rw [List.find?_eq_none]
  · intro txs
    unfold applyRulesToTransactions
    rw [classify_uncategorized_aux off rc ruleById buckets txs (initCategorized buckets, [])]
    simp

/-- A rule matching payee name exactly "amazon" (case-insensitive). -/
def ruleAmazon : Rule :=
  { id := "r1", name := "Amazon"
    filterGroup := some (FilterGroup.mk "fg1" none LogicalOperator.AND
      [{ id := "cA", field := FilterableField.payeeName,
         operator := FilterOperator.exactMatch, value := JSVal.str "amazon" }] []) }

/-- A rule matching any payee containing "a". -/
def ruleHasA : Rule :=
  { id := "r2", name := "HasA"
    filterGroup := some (FilterGroup.mk "fg2" none LogicalOperator.AND
      [{ id := "cB", field := FilterableField.payeeName,
         operator := FilterOperator.contains, value := JSVal.str "a" }] []) }

/-- Priority-1 bucket with the exact-match rule. -/
def bucketHi : Bucket :=
  { id := "bHi", name := "Hi", priority := 1, rules := [⟨"r1", true⟩] }

/-- Priority-2 bucket with the contains rule. -/
def bucketLo : Bucket :=
  { id := "bLo", name := "Lo", priority := 2, rules := [⟨"r2", true⟩] }

/-- The rule lookup for the classification witness. -/
def ruleLookupW : String → Option Rule := fun s =>
  if s = "r1" then some ruleAmazon
  else if s = "r2" then some ruleHasA
  else none

/-- C3 witness: with the buckets supplied in reverse priority order
and both rules matching the payee "Amazon", the claim theorem's
first-match characterization assigns the transaction to the
priority-1 bucket. -/
theorem claim_C3_witness :
    assignBucket 0 rcNone ruleLookupW [bucketLo, bucketHi] txSample = some bucketHi :=
  ((claim_C3 0 rcNone ruleLookupW [bucketLo, bucketHi]).2.2.2.2.1 txSample).trans (by decide)
